import Mathlib

/-!
Verification of the whisper-dictate recording-session controller
(src/dictate.py).

The development shallowly embeds the `WhisperDictate` class: its mutable
attributes become the fields of `DState`; each method becomes a state
transformer.  Amplitudes are modelled as rationals.  Outcomes of the two
external collaborators are passed in explicitly: the result of each audio
device open attempt as a `List Bool` (one entry per candidate device), and
the Transcription Gateway result as an `Option String` (`none` when the
`transcribe` call raises).
-/

namespace WhisperDictate

/-! ## Configuration constants (dictate.py lines 31-40) -/

def SAMPLE_RATE : ℕ := 16000

def SILENCE_THRESHOLD : ℚ := 1/100

def SILENCE_TRIM_MS : ℕ := 100

def MIN_RECORDING_SECONDS : ℚ := 1/2

def WATCHDOG_SPEECH_THRESHOLD : ℚ := 1/20

def WATCHDOG_NO_SPEECH_SECONDS : ℚ := 15

def WATCHDOG_MAX_RECORDING_SECONDS : ℚ := 180

/-- The near-zero audio-level floor, the literal `0.0001` at line 427. -/
def AUDIO_LEVEL_FLOOR : ℚ := 1/10000

/-! ## Python string primitives

`str.lower` and `str.strip` as used at lines 447 and 458.  All configured
hallucination phrases and the transcripts compared against them are ASCII,
so ASCII lowering is a faithful model. -/

/-- ASCII lower-casing of one character (model of Python `str.lower`). -/
def pyLowerChar (c : Char) : Char :=
  if 'A' ≤ c ∧ c ≤ 'Z' then Char.ofNat (c.toNat + 32) else c

/-- Model of Python `str.lower`. -/
def pyLower (s : String) : String := ⟨s.data.map pyLowerChar⟩

/-- Python whitespace for `str.strip`. -/
def pyIsSpace (c : Char) : Bool :=
  c = ' ' ∨ c = '\t' ∨ c = '\n' ∨ c = '\r' ∨ c = Char.ofNat 11 ∨ c = Char.ofNat 12

/-- Model of Python `str.strip`: drop whitespace from both ends. -/
def pyStrip (s : String) : String :=
  ⟨((s.data.dropWhile pyIsSpace).reverse.dropWhile pyIsSpace).reverse⟩

/-- The fixed hallucination phrase list, dictate.py lines 43-58. -/
def HALLUCINATION_PATTERNS : List String :=
  [ "transcribed by https://otter.ai",
    "otter.ai",
    "thanks for watching",
    "thank you for watching",
    "subscribe to my channel",
    "please subscribe",
    "like and subscribe",
    "see you in the next video",
    "see you next time",
    "the end",
    "you",
    "bye",
    "bye bye",
    "bye-bye" ]

/-- The post-transcription delivery decision of `stop_recording`
(dictate.py lines 447-463): strip the raw gateway text, reject an empty
transcript, reject an exact (lower-cased) hallucination-list member,
otherwise deliver the stripped text. -/
def filter_transcript (raw : String) : Option String :=
  if pyStrip raw = "" then none
  else if pyLower (pyStrip raw) ∈ HALLUCINATION_PATTERNS then none
  else some (pyStrip raw)

/-! ## Silence trimmer (dictate.py lines 220-242) -/

/-- `int(SILENCE_TRIM_MS * SAMPLE_RATE / 1000)`, line 232. -/
def buffer_samples : ℕ := SILENCE_TRIM_MS * SAMPLE_RATE / 1000

/-- `np.where(np.abs(audio) > SILENCE_THRESHOLD)[0]`: the indices of the
samples strictly above the silence threshold, in increasing order. -/
def nonSilentIndices (audio : List ℚ) : List ℕ :=
  (List.range audio.length).filter fun k => decide (SILENCE_THRESHOLD < |audio.getD k 0|)

/-- `WhisperDictate.trim_silence`.  If no sample exceeds the threshold the
input is returned unchanged; otherwise the Python slice
`audio[max(0, first - buffer) : min(len(audio), last + buffer)]` is
returned (natural subtraction models `max(0, ...)`). -/
def trim_silence (audio : List ℚ) : List ℚ :=
  if (nonSilentIndices audio).isEmpty then audio
  else
    (audio.drop ((nonSilentIndices audio).headD 0 - buffer_samples)).take
      (min audio.length ((nonSilentIndices audio).getLastD 0 + buffer_samples) -
        ((nonSilentIndices audio).headD 0 - buffer_samples))

/-! ## Device enumerator (dictate.py lines 244-269) -/

structure DeviceInfo where
  name : String
  maxInputChannels : ℕ
deriving DecidableEq

/-- The static priority policy of `_get_available_input_devices`
(lines 252-263), applied to the lower-cased device name. -/
def device_priority (nameLower : String) : ℕ :=
  if "macbook".data <:+: nameLower.data then 100
  else if "airpods".data <:+: nameLower.data ∨ "headphone".data <:+: nameLower.data then 90
  else if "iphone".data <:+: nameLower.data then 80
  else if "teams".data <:+: nameLower.data ∨ "zoom".data <:+: nameLower.data then 10
  else 50

/-- Insert an entry into a descending-priority list, before the first
entry of strictly smaller priority.  Equal priorities keep the inserted
(earlier) entry first, which is exactly the stability guarantee of
Python's `list.sort`. -/
def insert_by_priority (x : ℕ × ℕ × String) : List (ℕ × ℕ × String) → List (ℕ × ℕ × String)
  | [] => [x]
  | y :: ys => if y.1 ≤ x.1 then x :: y :: ys else y :: insert_by_priority x ys

/-- `devices.sort(key=lambda x: -x[0])` (line 266): Python's `list.sort`
is a stable sort, and a stable sort by a total preorder is extensionally
unique, so a stable insertion sort is a faithful model. -/
def sort_by_priority (l : List (ℕ × ℕ × String)) : List (ℕ × ℕ × String) :=
  l.foldr insert_by_priority []

/-- The `(priority, index, name)` triples accumulated by the loop at lines
249-264: every device with at least one input channel, indexed by its
position in the full enumeration. -/
def prioritized_input_devices (devs : List DeviceInfo) : List (ℕ × ℕ × String) :=
  (devs.enum.filter fun p => decide (0 < p.2.maxInputChannels)).map
    fun p => (device_priority (pyLower p.2.name), p.1, p.2.name)

/-- `WhisperDictate._get_available_input_devices`. -/
def get_available_input_devices (devs : List DeviceInfo) : List (ℕ × ℕ × String) :=
  sort_by_priority (prioritized_input_devices devs)

/-! ## Session controller state -/

/-- The mutable attributes of `WhisperDictate` that the session state
machine reads and writes.  `stream = true` models "`self.stream` holds an
open stream"; `leaked` counts streams that were opened and then abandoned
without being closed (it stays `0` on every reachable state, which is the
no-double-open property). -/
structure DState where
  recording : Bool
  audioData : List (List ℚ)
  ctrlPressed : Bool
  spacePressed : Bool
  stream : Bool
  leaked : ℕ
  recordingStartTime : Option ℚ
  watchdogArmed : Bool
  lastSpeechActivity : Option ℚ
deriving DecidableEq

/-- The attribute values set in `__init__` (lines 188-198). -/
def initState : DState :=
  { recording := false
    audioData := []
    ctrlPressed := false
    spacePressed := false
    stream := false
    leaked := 0
    recordingStartTime := none
    watchdogArmed := false
    lastSpeechActivity := none }

/-- Mean absolute amplitude, `np.abs(audio).mean()`. -/
def meanAbs (audio : List ℚ) : ℚ :=
  (audio.map fun x => |x|).sum / audio.length

/-- The device fallback loop of `start_recording` (lines 369-397): try the
candidates in order; the first successful open starts the stream and arms
the watchdog (`_start_watchdog` also resets `_last_speech_activity`,
line 286); if every candidate fails, revert to inactive (lines 395-397).
Assigning `self.stream` while it already holds an open stream would
abandon that stream unclosed, counted in `leaked`. -/
def try_devices (now : ℚ) : List Bool → DState → DState
  | [], s => { s with recording := false, recordingStartTime := none }
  | ok :: rest, s =>
    if ok then
      { s with leaked := s.leaked + (if s.stream then 1 else 0)
               stream := true
               watchdogArmed := true
               lastSpeechActivity := some now }
    else try_devices now rest s

/-- `WhisperDictate.start_recording` (lines 353-397). -/
def start_recording (now : ℚ) (opens : List Bool) (s : DState) : DState :=
  if s.recording then s
  else
    try_devices now opens
      { s with audioData := [], recording := true, recordingStartTime := some now }

/-- The state updates common to every `stop_recording` branch (lines
401-408): leave recording, clear the start time, cancel the watchdog,
force-release the stream. -/
def stopClear (s : DState) : DState :=
  { s with recording := false
           recordingStartTime := none
           watchdogArmed := false
           stream := false }

/-- `WhisperDictate.stop_recording` (lines 399-466).  Returns the new
state, whether the Transcription Gateway (`self.model.transcribe`) was
invoked, and the text delivered to the Output Sink, if any.  `tr` is the
gateway outcome: `none` when `transcribe` raises. -/
def stop_recording (tr : Option String) (s : DState) : DState × Bool × Option String :=
  if s.recording = false then (s, false, none)
  else if s.audioData.isEmpty then (stopClear s, false, none)
  else if (s.audioData.flatten.length : ℚ) / (SAMPLE_RATE : ℚ) < MIN_RECORDING_SECONDS then
    (stopClear s, false, none)
  else if meanAbs s.audioData.flatten < AUDIO_LEVEL_FLOOR then (stopClear s, false, none)
  else
    match tr with
    | none => (stopClear s, true, none)
    | some raw => (stopClear s, true, filter_transcript raw)

/-- `WhisperDictate.audio_callback` (lines 210-218): while recording,
append the frame batch and refresh the speech-activity timestamp when the
batch's mean amplitude exceeds the speech threshold. -/
def audio_callback (frame : List ℚ) (now : ℚ) (s : DState) : DState :=
  if s.recording then
    { s with audioData := s.audioData ++ [frame]
             lastSpeechActivity :=
               if WATCHDOG_SPEECH_THRESHOLD < meanAbs frame then some now
               else s.lastSpeechActivity }
  else s

/-- The two tracked chord keys (the ctrl variants collapse to one). -/
inductive Key where
  | ctrl
  | space
  | other
deriving DecidableEq

/-- `WhisperDictate.on_press` (lines 485-497). -/
def on_press (k : Key) (now : ℚ) (opens : List Bool) (s : DState) : DState :=
  match k with
  | Key.ctrl =>
    if s.spacePressed && !s.recording then start_recording now opens { s with ctrlPressed := true }
    else { s with ctrlPressed := true }
  | Key.space =>
    if s.ctrlPressed && !s.recording then start_recording now opens { s with spacePressed := true }
    else { s with spacePressed := true }
  | Key.other =>
    if s.ctrlPressed && s.spacePressed && !s.recording then start_recording now opens s
    else s

/-- `WhisperDictate.on_release` (lines 499-509).  Returns the new state,
whether `stop_recording` was invoked, and the delivered text, if any. -/
def on_release (k : Key) (tr : Option String) (s : DState) : DState × Bool × Option String :=
  match k with
  | Key.ctrl =>
    if ({ s with ctrlPressed := false } : DState).recording &&
        (!false || !s.spacePressed) then
      ((stop_recording tr { s with ctrlPressed := false }).1, true,
        (stop_recording tr { s with ctrlPressed := false }).2.2)
    else ({ s with ctrlPressed := false }, false, none)
  | Key.space =>
    if ({ s with spacePressed := false } : DState).recording &&
        (!s.ctrlPressed || !false) then
      ((stop_recording tr { s with spacePressed := false }).1, true,
        (stop_recording tr { s with spacePressed := false }).2.2)
    else ({ s with spacePressed := false }, false, none)
  | Key.other =>
    if s.recording && (!s.ctrlPressed || !s.spacePressed) then
      ((stop_recording tr s).1, true, (stop_recording tr s).2.2)
    else (s, false, none)

/-- One firing of `_watchdog_check` (lines 288-324).  Returns the new
state, whether `stop_recording` was invoked, and whether the timer was
re-armed. -/
def watchdog_check (now : ℚ) (tr : Option String) (s : DState) : DState × Bool × Bool :=
  if s.recording = false then (s, false, false)
  else if WATCHDOG_MAX_RECORDING_SECONDS ≤ now - s.recordingStartTime.getD 0 then
    ((stop_recording tr { s with ctrlPressed := false, spacePressed := false }).1, true, false)
  else if WATCHDOG_NO_SPEECH_SECONDS ≤ now - s.lastSpeechActivity.getD 0 then
    ((stop_recording tr { s with ctrlPressed := false, spacePressed := false }).1, true, false)
  else ({ s with watchdogArmed := true }, false, true)

/-! ## Event traces -/

/-- One externally triggered entry into the controller: a key press (with
the open outcomes of the candidate devices should a session start), a key
release (with the gateway outcome should a session stop), a driver
callback frame, or a watchdog firing. -/
inductive Event where
  | press (k : Key) (now : ℚ) (opens : List Bool)
  | release (k : Key) (tr : Option String)
  | frame (xs : List ℚ) (now : ℚ)
  | watchdogFire (now : ℚ) (tr : Option String)

def step (s : DState) (e : Event) : DState :=
  match e with
  | Event.press k now opens => on_press k now opens s
  | Event.release k tr => (on_release k tr s).1
  | Event.frame xs now => audio_callback xs now s
  | Event.watchdogFire now tr => (watchdog_check now tr s).1

def run (evs : List Event) : DState :=
  evs.foldl step initState

/-- Number of currently open capture streams: the one held in
`self.stream`, if any, plus every abandoned unclosed one. -/
def openStreamCount (s : DState) : ℕ :=
  (if s.stream then 1 else 0) + s.leaked

/-- A concrete mid-session state: chord held, stream open, watchdog armed,
session started at time 0. -/
def recordingState : DState :=
  { recording := true
    audioData := []
    ctrlPressed := true
    spacePressed := true
    stream := true
    leaked := 0
    recordingStartTime := some 0
    watchdogArmed := true
    lastSpeechActivity := some 0 }

/-- A mid-session state whose speech activity was refreshed at the very
instant the hard cap elapses. -/
def cappedState : DState :=
  { recordingState with lastSpeechActivity := some 180 }

/-! ## Helper lemmas about the controller operations -/

/-- `stop_recording` either returns at the `if not self.recording` guard,
leaving the state untouched, or runs the common cleanup `stopClear`. -/
theorem stop_recording_state (tr : Option String) (x : DState) :
    (stop_recording tr x).1 = if x.recording then stopClear x else x := by
  cases hx : x.recording
  · simp [stop_recording, hx]
  · have h1 : (stop_recording tr x).1 = stopClear x := by
      unfold stop_recording
      simp only [hx, Bool.true_eq_false, if_false]
      split
      · rfl
      · split
        · rfl
        · split
          · rfl
          · cases tr <;> rfl
    rw [h1]
    simp [hx]

/-- Every return of `stop_recording` has `recording == False`, whichever
branch was taken. -/
theorem stop_recording_not_recording (tr : Option String) (x : DState) :
    (stop_recording tr x).1.recording = false := by
  rw [stop_recording_state]
  cases hx : x.recording
  · simp [hx]
  · simp [hx, stopClear]

/-- Shape of the device fallback loop: either every candidate failed and
the session is aborted, or some candidate succeeded and the stream is
open with the recording flag untouched. -/
theorem try_devices_shape (now : ℚ) (opens : List Bool) (x : DState) :
    try_devices now opens x = { x with recording := false, recordingStartTime := none } ∨
    ((try_devices now opens x).stream = true ∧
      (try_devices now opens x).recording = x.recording ∧
      (try_devices now opens x).leaked = x.leaked + (if x.stream then 1 else 0)) := by
  induction opens with
  | nil => left; rfl
  | cons ok rest ih =>
    cases h : ok
    · simpa [try_devices, h] using ih
    · right
      simp [try_devices, h]

/-! ## Claim theorems -/

/-- C1: whenever a `start_recording` call (successful or with every
fallback device failing) or a `stop_recording` call (whatever rejection
branch it takes) returns with the controller inactive
(`recording == false`), the audio capture stream is closed: no rejection
or recoverable failure leaves the system outside Idle with the microphone
still open. -/
theorem idle_return_releases_stream (s : DState) (now : ℚ) (opens : List Bool)
    (tr : Option String) (hinv : s.stream = true → s.recording = true) :
    ((start_recording now opens s).recording = false →
      (start_recording now opens s).stream = false) ∧
    ((stop_recording tr s).1.recording = false → (stop_recording tr s).1.stream = false) := by
  constructor
  · intro hrec
    cases hx : s.recording
    · have hstream : s.stream = false := by
        cases hs : s.stream
        · rfl
        · rw [hinv hs] at hx
          simp at hx
      simp only [start_recording, hx, Bool.false_eq_true, if_false] at hrec ⊢
      rcases try_devices_shape now opens
        { s with audioData := [], recording := true, recordingStartTime := some now } with
        heq | ⟨_, hr, _⟩
      · rw [heq]
        simpa using hstream
      · rw [hr] at hrec
        simp at hrec
    · simp [start_recording, hx] at hrec
  · intro hrec
    rw [stop_recording_state] at hrec ⊢
    cases hx : s.recording
    · simp only [hx, Bool.false_eq_true, if_false]
      cases hs : s.stream
      · rfl
      · rw [hinv hs] at hx
        simp at hx
    · simp [hx, stopClear]

/-- C1 witness: at the freshly initialised state, with every device open
failing, `start_recording` returns to Idle with the stream closed, and a
spurious `stop_recording` leaves the stream closed as well. -/
theorem idle_return_releases_stream_witness :
    (start_recording 0 [] initState).stream = false ∧
    (stop_recording none initState).1.stream = false := by
  have h := idle_return_releases_stream initState 0 [] none
    (by intro h; simp [initState] at h)
  exact ⟨h.1 rfl, h.2 rfl⟩

/-- C6: while Recording, a release of either tracked chord key (not only
both) invokes `stop_recording` and returns the controller to Idle; a key
release arriving while not Recording never invokes `stop_recording` and
leaves the recording flag unchanged. -/
theorem release_either_key_stops (s : DState) (tr : Option String) :
    (s.recording = true →
      ((on_release Key.ctrl tr s).2.1 = true ∧ (on_release Key.ctrl tr s).1.recording = false) ∧
      ((on_release Key.space tr s).2.1 = true ∧ (on_release Key.space tr s).1.recording = false)) ∧
    (s.recording = false → ∀ k,
      (on_release k tr s).2.1 = false ∧ (on_release k tr s).1.recording = s.recording) := by
  constructor
  · intro h
    refine ⟨⟨?_, ?_⟩, ⟨?_, ?_⟩⟩ <;>
      simp [on_release, h, stop_recording_not_recording]
  · intro h k
    cases k <;> simp [on_release, h]

/-- C6 witness: from a Recording state, releasing just the ctrl key stops
(even with space still held), and from Idle a release is a no-op. -/
theorem release_either_key_stops_witness :
    ((on_release Key.ctrl none recordingState).2.1 = true ∧
      (on_release Key.ctrl none recordingState).1.recording = false) ∧
    ((on_release Key.space none initState).2.1 = false ∧
      (on_release Key.space none initState).1.recording = initState.recording) :=
  ⟨((release_either_key_stops recordingState none).1 rfl).1,
    (release_either_key_stops initState none).2 rfl Key.space⟩

/-- C7: whenever `_watchdog_check` runs on an active session whose elapsed
time has reached `WATCHDOG_MAX_RECORDING_SECONDS`, it force-stops
unconditionally — for every value of `lastSpeechActivity`, i.e. even if
speech activity has been continuously refreshed — clearing both
chord-state booleans before invoking the same `stop_recording` path used
by a normal release, and it does not re-arm itself. -/
theorem watchdog_hard_cap_forces_stop (s : DState) (now t0 : ℚ) (tr : Option String)
    (hrec : s.recording = true) (hst : s.recordingStartTime = some t0)
    (hcap : WATCHDOG_MAX_RECORDING_SECONDS ≤ now - t0) :
    watchdog_check now tr s =
      ((stop_recording tr { s with ctrlPressed := false, spacePressed := false }).1,
        true, false) := by
  simp [watchdog_check, hrec, hst, hcap]

/-- C7 witness: a session started at time 0 with speech activity refreshed
at the cap instant itself is still force-stopped at elapsed 180. -/
theorem watchdog_hard_cap_forces_stop_witness :
    watchdog_check 180 none cappedState =
      ((stop_recording none
          { cappedState with ctrlPressed := false, spacePressed := false }).1,
        true, false) :=
  watchdog_hard_cap_forces_stop cappedState 180 0 none rfl rfl
    (by norm_num [WATCHDOG_MAX_RECORDING_SECONDS])

/-- C10: a watchdog callback firing after the session has already left
Recording mutates no state, never invokes `stop_recording`, and does not
re-arm itself. -/
theorem stale_watchdog_noop (s : DState) (now : ℚ) (tr : Option String)
    (h : s.recording = false) :
    watchdog_check now tr s = (s, false, false) := by
  simp [watchdog_check, h]

/-- C10 witness: a stale watchdog firing against the cleared initial state
is a no-op. -/
theorem stale_watchdog_noop_witness :
    watchdog_check 1000 none initState = (initState, false, false) :=
  stale_watchdog_noop initState 1000 none rfl

/-- C8: `stop_recording` invokes the Transcription Gateway only when the
captured audio lasts at least `MIN_RECORDING_SECONDS` and has mean
absolute amplitude at least the near-zero floor; every shorter recording,
and every recording below the floor, never reaches the gateway, produces
no output, and leaves the controller Idle. -/
theorem gateway_only_on_valid_audio (s : DState) (tr : Option String) :
    ((stop_recording tr s).2.1 = true →
      MIN_RECORDING_SECONDS ≤ (s.audioData.flatten.length : ℚ) / (SAMPLE_RATE : ℚ) ∧
      AUDIO_LEVEL_FLOOR ≤ meanAbs s.audioData.flatten) ∧
    ((s.audioData.flatten.length : ℚ) / (SAMPLE_RATE : ℚ) < MIN_RECORDING_SECONDS →
      (stop_recording tr s).2.1 = false ∧ (stop_recording tr s).2.2 = none ∧
        (stop_recording tr s).1.recording = false) ∧
    (meanAbs s.audioData.flatten < AUDIO_LEVEL_FLOOR →
      (stop_recording tr s).2.1 = false ∧ (stop_recording tr s).2.2 = none ∧
        (stop_recording tr s).1.recording = false) := by
  refine ⟨?_, ?_, ?_⟩
  · intro hcall
    unfold stop_recording at hcall
    split at hcall
    · simp at hcall
    · split at hcall
      · simp at hcall
      · split at hcall
        · simp at hcall
        · split at hcall
          · simp at hcall
          · rename_i hd hl
            exact ⟨not_lt.mp hd, not_lt.mp hl⟩
  · intro hd
    refine ⟨?_, ?_, stop_recording_not_recording tr s⟩ <;>
    · unfold stop_recording
      cases hx : s.recording
      · simp [hx]
      · cases he : s.audioData.isEmpty
        · rw [if_neg (by simp [hx]), if_neg (by simp [he]), if_pos hd]
        · rw [if_neg (by simp [hx]), if_pos rfl]
  · intro hl
    refine ⟨?_, ?_, stop_recording_not_recording tr s⟩ <;>
    · unfold stop_recording
      cases hx : s.recording
      · simp [hx]
      · cases he : s.audioData.isEmpty
        · by_cases hd :
            (s.audioData.flatten.length : ℚ) / (SAMPLE_RATE : ℚ) < MIN_RECORDING_SECONDS
          · rw [if_neg (by simp [hx]), if_neg (by simp [he]), if_pos hd]
          · rw [if_neg (by simp [hx]), if_neg (by simp [he]), if_neg hd, if_pos hl]
        · rw [if_neg (by simp [hx]), if_pos rfl]

/-- A stopped session that captured a single one-sample frame: far shorter
than `MIN_RECORDING_SECONDS`. -/
def shortState : DState :=
  { recordingState with audioData := [[1/2]] }

/-- A stopped session that captured one all-zero frame: mean amplitude 0,
below the near-zero floor. -/
def quietState : DState :=
  { recordingState with audioData := [[0]] }

/-- C8 witness: a 1/16000-second recording and an all-zero recording are
both rejected without a gateway call. -/
theorem gateway_only_on_valid_audio_witness :
    ((stop_recording none shortState).2.1 = false ∧
      (stop_recording none shortState).2.2 = none) ∧
    ((stop_recording none quietState).2.1 = false ∧
      (stop_recording none quietState).2.2 = none) := by
  have h1 := (gateway_only_on_valid_audio shortState none).2.1
    (by norm_num [shortState, recordingState, SAMPLE_RATE, MIN_RECORDING_SECONDS])
  have h2 := (gateway_only_on_valid_audio quietState none).2.2
    (by norm_num [quietState, recordingState, meanAbs, AUDIO_LEVEL_FLOOR])
  exact ⟨⟨h1.1, h1.2.1⟩, ⟨h2.1, h2.2.1⟩⟩

/-! ## The no-double-open trace invariant -/

/-- Invariant maintained by every controller entry point: no stream has
ever been abandoned unclosed, and the stream is open only while the
controller believes recording is in progress. -/
def StreamInv (s : DState) : Prop :=
  s.leaked = 0 ∧ (s.stream = true → s.recording = true)

theorem streamInv_init : StreamInv initState := by
  constructor <;> simp [initState]

theorem streamInv_try_devices (now : ℚ) (opens : List Bool) (x : DState)
    (h0 : x.leaked = 0) (h1 : x.stream = false) (h2 : x.recording = true) :
    StreamInv (try_devices now opens x) := by
  rcases try_devices_shape now opens x with heq | ⟨hstr, hr, hlk⟩
  · rw [heq]
    exact ⟨h0, by simp [h1]⟩
  · refine ⟨?_, fun _ => by rw [hr]; exact h2⟩
    rw [hlk, h0, h1]
    simp

theorem streamInv_start (now : ℚ) (opens : List Bool) (s : DState) (h : StreamInv s) :
    StreamInv (start_recording now opens s) := by
  cases hx : s.recording
  · have hstream : s.stream = false := by
      cases hs : s.stream
      · rfl
      · rw [h.2 hs] at hx
        simp at hx
    unfold start_recording
    simp only [hx, Bool.false_eq_true, if_false]
    exact streamInv_try_devices now opens _ (by simpa using h.1) (by simpa using hstream)
      (by simp)
  · simpa [start_recording, hx] using h

theorem streamInv_stop (tr : Option String) (s : DState) (h : StreamInv s) :
    StreamInv (stop_recording tr s).1 := by
  rw [stop_recording_state]
  cases hx : s.recording
  · simpa [hx] using h
  · simp only [hx, if_true]
    exact ⟨by simp [stopClear, h.1], by simp [stopClear]⟩

theorem streamInv_press (k : Key) (now : ℚ) (opens : List Bool) (s : DState)
    (h : StreamInv s) : StreamInv (on_press k now opens s) := by
  cases k <;> simp only [on_press] <;> split
  · exact streamInv_start now opens _ ⟨h.1, h.2⟩
  · exact ⟨h.1, h.2⟩
  · exact streamInv_start now opens _ ⟨h.1, h.2⟩
  · exact ⟨h.1, h.2⟩
  · exact streamInv_start now opens _ ⟨h.1, h.2⟩
  · exact ⟨h.1, h.2⟩

theorem streamInv_release (k : Key) (tr : Option String) (s : DState)
    (h : StreamInv s) : StreamInv (on_release k tr s).1 := by
  cases k <;> simp only [on_release] <;> split
  · exact streamInv_stop tr _ ⟨h.1, h.2⟩
  · exact ⟨h.1, h.2⟩
  · exact streamInv_stop tr _ ⟨h.1, h.2⟩
  · exact ⟨h.1, h.2⟩
  · exact streamInv_stop tr _ ⟨h.1, h.2⟩
  · exact ⟨h.1, h.2⟩

theorem streamInv_frame (xs : List ℚ) (now : ℚ) (s : DState)
    (h : StreamInv s) : StreamInv (audio_callback xs now s) := by
  unfold audio_callback
  split
  · exact ⟨h.1, h.2⟩
  · exact h

theorem streamInv_watchdog (now : ℚ) (tr : Option String) (s : DState)
    (h : StreamInv s) : StreamInv (watchdog_check now tr s).1 := by
  unfold watchdog_check
  split
  · exact h
  · split
    · exact streamInv_stop tr _ ⟨h.1, h.2⟩
    · split
      · exact streamInv_stop tr _ ⟨h.1, h.2⟩
      · exact ⟨h.1, h.2⟩

theorem streamInv_step (s : DState) (e : Event) (h : StreamInv s) :
    StreamInv (step s e) := by
  cases e with
  | press k now opens => exact streamInv_press k now opens s h
  | release k tr => exact streamInv_release k tr s h
  | frame xs now => exact streamInv_frame xs now s h
  | watchdogFire now tr => exact streamInv_watchdog now tr s h

theorem streamInv_run (evs : List Event) : StreamInv (run evs) := by
  suffices h : ∀ (l : List Event) (s : DState), StreamInv s → StreamInv (l.foldl step s) from
    h evs initState streamInv_init
  intro l
  induction l with
  | nil => exact fun s hs => hs
  | cons e t ih => exact fun s hs => ih (step s e) (streamInv_step s e hs)

/-- C5: along every trace of chord press/release events (with driver
frames and watchdog firings interleaved), at most one audio capture
stream is open at any instant; and a chord-engage delivered while already
Recording is a no-op: `start_recording` returns immediately, opening no
second stream. -/
theorem at_most_one_open_stream :
    (∀ evs : List Event, openStreamCount (run evs) ≤ 1) ∧
    (∀ (s : DState) (now : ℚ) (opens : List Bool),
      s.recording = true → start_recording now opens s = s) := by
  constructor
  · intro evs
    obtain ⟨h0, _⟩ := streamInv_run evs
    unfold openStreamCount
    rw [h0]
    split <;> simp
  · intro s now opens h
    simp [start_recording, h]

/-- C5 witness: a re-entrant engage on a live session changes nothing,
and the empty trace has at most one open stream. -/
theorem at_most_one_open_stream_witness :
    start_recording 1 [true] recordingState = recordingState ∧
    openStreamCount (run []) ≤ 1 :=
  ⟨at_most_one_open_stream.2 recordingState 1 [true] rfl,
    at_most_one_open_stream.1 []⟩

/-! ## Helper lemmas for the silence trimmer -/

/-- The first index of `range n` satisfying `p` heads the filtered list. -/
theorem filter_range_head (p : ℕ → Bool) (i : ℕ) (hp : p i = true)
    (hmin : ∀ k, k < i → p k = false) :
    ∀ n, i < n → ((List.range n).filter p).head? = some i := by
  intro n
  induction n with
  | zero => exact fun h => absurd h (Nat.not_lt_zero i)
  | succ n ih =>
    intro hi
    rw [List.range_succ, List.filter_append]
    by_cases h : i < n
    · have hh := ih h
      cases hfl : (List.range n).filter p with
      | nil => rw [hfl] at hh; simp at hh
      | cons a t =>
        rw [hfl] at hh
        simpa using hh
    · have hin : i = n := by omega
      subst hin
      have hnil : (List.range i).filter p = [] := by
        apply List.filter_eq_nil_iff.mpr
        intro a ha
        rw [List.mem_range] at ha
        simp [hmin a ha]
      rw [hnil]
      simp [hp]

/-- The last index of `range n` satisfying `p` ends the filtered list. -/
theorem filter_range_getLast (p : ℕ → Bool) (j : ℕ) (hp : p j = true) :
    ∀ n, j < n → (∀ k, j < k → k < n → p k = false) →
      ((List.range n).filter p).getLast? = some j := by
  intro n
  induction n with
  | zero => exact fun h _ => absurd h (Nat.not_lt_zero j)
  | succ n ih =>
    intro hj hmax
    rw [List.range_succ, List.filter_append]
    by_cases h : j < n
    · have hpn : p n = false := hmax n h (Nat.lt_succ_self n)
      have hfl : List.filter p [n] = [] := by simp [hpn]
      rw [hfl, List.append_nil]
      exact ih h fun k h1 h2 => hmax k h1 (Nat.lt_succ_of_lt h2)
    · have hjn : j = n := by omega
      subst hjn
      have hfl : List.filter p [j] = [j] := by simp [hp]
      rw [hfl]
      exact List.getLast?_concat _

/-- Core characterisation of `trim_silence` when some sample exceeds the
threshold, `i` being the first index above it and `j` the last. -/
theorem trim_silence_eq_slice (audio : List ℚ) (i j : ℕ)
    (hi : i < audio.length) (hj : j < audio.length)
    (hpi : SILENCE_THRESHOLD < |audio.getD i 0|)
    (hpj : SILENCE_THRESHOLD < |audio.getD j 0|)
    (hmin : ∀ k, k < i → ¬ SILENCE_THRESHOLD < |audio.getD k 0|)
    (hmax : ∀ k, j < k → k < audio.length → ¬ SILENCE_THRESHOLD < |audio.getD k 0|) :
    trim_silence audio =
      (audio.drop (i - buffer_samples)).take
        (min audio.length (j + buffer_samples) - (i - buffer_samples)) := by
  have hhead : (nonSilentIndices audio).head? = some i := by
    apply filter_range_head _ i (decide_eq_true hpi) _ audio.length hi
    intro k hk
    exact decide_eq_false (hmin k hk)
  have hlast : (nonSilentIndices audio).getLast? = some j := by
    apply filter_range_getLast _ j (decide_eq_true hpj) audio.length hj
    intro k h1 h2
    exact decide_eq_false (hmax k h1 h2)
  have hne : (nonSilentIndices audio).isEmpty = false := by
    cases hfl : nonSilentIndices audio with
    | nil => rw [hfl] at hhead; simp at hhead
    | cons a t => simp
  have hhd : (nonSilentIndices audio).headD 0 = i := by
    rw [List.headD_eq_head?, hhead]
    rfl
  have hld : (nonSilentIndices audio).getLastD 0 = j := by
    rw [List.getLastD_eq_getLast?, hlast]
    rfl
  unfold trim_silence
  rw [hne, hhd, hld]
  simp

/-- For a non-empty list, `getD` at the final position is `getLastD`. -/
theorem getD_length_sub_one (xs : List ℚ) : ∀ d : ℚ, xs.getD (xs.length - 1) d = xs.getLastD d := by
  induction xs with
  | nil => exact fun d => rfl
  | cons a t ih =>
    intro d
    cases t with
    | nil => rfl
    | cons b u =>
      have h1 : (a :: b :: u).getD ((a :: b :: u).length - 1) d =
          (b :: u).getD ((b :: u).length - 1) d := by
        simp [List.getD_cons_succ]
      rw [h1, ih d]
      simp [List.getLastD_cons]

/-! ## Claims about the silence trimmer -/

/-- C3: `trim_silence` returns the input unchanged when no sample's
absolute amplitude exceeds the silence threshold; otherwise it returns
the contiguous slice bounded by the first and last indices above the
threshold, each bound widened outward by the edge padding
(`SILENCE_TRIM_MS` converted to a sample count) and clamped to the buffer
extents. -/
theorem trim_silence_correct (audio : List ℚ) :
    ((∀ x ∈ audio, ¬ SILENCE_THRESHOLD < |x|) → trim_silence audio = audio) ∧
    (∀ i j, i < audio.length → j < audio.length →
      SILENCE_THRESHOLD < |audio.getD i 0| → SILENCE_THRESHOLD < |audio.getD j 0| →
      (∀ k, k < i → ¬ SILENCE_THRESHOLD < |audio.getD k 0|) →
      (∀ k, j < k → k < audio.length → ¬ SILENCE_THRESHOLD < |audio.getD k 0|) →
      trim_silence audio =
        (audio.drop (i - buffer_samples)).take
          (min audio.length (j + buffer_samples) - (i - buffer_samples))) := by
  constructor
  · intro hall
    have hnil : nonSilentIndices audio = [] := by
      apply List.filter_eq_nil_iff.mpr
      intro k hk
      rw [List.mem_range] at hk
      have hmem : audio.getD k 0 ∈ audio := by
        have hg : audio.getD k 0 = audio.get ⟨k, hk⟩ := by
          rw [List.getD_eq_getElem?_getD, List.getElem?_eq_getElem hk]
          rfl
        rw [hg]
        exact List.get_mem audio k hk
      rw [decide_eq_true_eq]
      exact hall _ hmem
    simp [trim_silence, hnil]
  · intro i j hi hj hpi hpj hmin hmax
    exact trim_silence_eq_slice audio i j hi hj hpi hpj hmin hmax

/-- C3 witness: on `[0, 1/2, 0]` the only sample above the threshold is at
index 1, and the trimmer yields the corresponding padded clamped slice
(here the whole buffer, since the padding is 1600 samples). -/
theorem trim_silence_correct_witness :
    trim_silence [(0 : ℚ), 1/2, 0] =
      (([(0 : ℚ), 1/2, 0].drop (1 - buffer_samples)).take
        (min ([(0 : ℚ), 1/2, 0].length) (1 + buffer_samples) - (1 - buffer_samples))) := by
  apply (trim_silence_correct [(0 : ℚ), 1/2, 0]).2 1 1
  · show 1 < 3
    norm_num
  · show 1 < 3
    norm_num
  · show SILENCE_THRESHOLD < |(1/2 : ℚ)|
    rw [abs_of_pos (by norm_num : (0 : ℚ) < 1/2)]
    norm_num [SILENCE_THRESHOLD]
  · show SILENCE_THRESHOLD < |(1/2 : ℚ)|
    rw [abs_of_pos (by norm_num : (0 : ℚ) < 1/2)]
    norm_num [SILENCE_THRESHOLD]
  · intro k hk
    have hk0 : k = 0 := by omega
    subst hk0
    show ¬ SILENCE_THRESHOLD < |(0 : ℚ)|
    norm_num [SILENCE_THRESHOLD]
  · intro k hk1 hk2
    have hk3 : k < 3 := by simpa using hk2
    have hk2' : k = 2 := by omega
    subst hk2'
    show ¬ SILENCE_THRESHOLD < |(0 : ℚ)|
    norm_num [SILENCE_THRESHOLD]

/-- C4: a non-empty buffer whose first and last samples already exceed
the silence threshold is returned unchanged, hence trimming is idempotent
on its own output when that output's edges satisfy the threshold. -/
theorem trim_silence_idem (xs : List ℚ) (h0 : xs ≠ [])
    (h1 : SILENCE_THRESHOLD < |xs.headD 0|) (h2 : SILENCE_THRESHOLD < |xs.getLastD 0|) :
    trim_silence xs = xs ∧ trim_silence (trim_silence xs) = trim_silence xs := by
  have hlen : 0 < xs.length := List.length_pos.mpr h0
  have hbuf : 1 ≤ buffer_samples := by norm_num [buffer_samples, SILENCE_TRIM_MS, SAMPLE_RATE]
  have hh : xs.getD 0 0 = xs.headD 0 := by
    cases xs with
    | nil => exact absurd rfl h0
    | cons a t => rfl
  have hl : xs.getD (xs.length - 1) 0 = xs.getLastD 0 := getD_length_sub_one xs 0
  have main : trim_silence xs = xs := by
    have hs := trim_silence_eq_slice xs 0 (xs.length - 1) hlen (by omega)
      (by rw [hh]; exact h1) (by rw [hl]; exact h2)
      (fun k hk => absurd hk (Nat.not_lt_zero k))
      (fun k hk1 hk2 => (by omega : False).elim)
    rw [hs]
    have e1 : 0 - buffer_samples = 0 := by omega
    have e2 : min xs.length (xs.length - 1 + buffer_samples) = xs.length := by omega
    rw [e1, e2, List.drop_zero, Nat.sub_zero, List.take_length]
  exact ⟨main, by rw [main]; exact main⟩

/-! ## Helper lemmas for the device enumerator -/

theorem mem_insert_by_priority (x y : ℕ × ℕ × String) (l : List (ℕ × ℕ × String)) :
    y ∈ insert_by_priority x l ↔ y = x ∨ y ∈ l := by
  induction l with
  | nil => simp [insert_by_priority]
  | cons a t ih =>
    by_cases h : a.1 ≤ x.1
    · simp [insert_by_priority, h]
    · simp only [insert_by_priority, if_neg h, List.mem_cons, ih]
      tauto

theorem pairwise_insert_by_priority (x : ℕ × ℕ × String) (l : List (ℕ × ℕ × String))
    (h : l.Pairwise fun a b => b.1 ≤ a.1) :
    (insert_by_priority x l).Pairwise fun a b => b.1 ≤ a.1 := by
  induction l with
  | nil => simp [insert_by_priority]
  | cons a t ih =>
    rcases List.pairwise_cons.mp h with ⟨ha, ht⟩
    by_cases hc : a.1 ≤ x.1
    · simp only [insert_by_priority, if_pos hc]
      refine List.pairwise_cons.mpr ⟨?_, h⟩
      intro b hb
      rcases List.mem_cons.mp hb with rfl | hb
      · exact hc
      · exact le_trans (ha b hb) hc
    · simp only [insert_by_priority, if_neg hc]
      refine List.pairwise_cons.mpr ⟨?_, ih ht⟩
      intro b hb
      rcases (mem_insert_by_priority x b t).mp hb with rfl | hb
      · exact le_of_lt (lt_of_not_le hc)
      · exact ha b hb

theorem filter_insert_by_priority (x : ℕ × ℕ × String) (l : List (ℕ × ℕ × String)) (p : ℕ) :
    (insert_by_priority x l).filter (fun y => decide (y.1 = p)) =
      if x.1 = p then x :: l.filter (fun y => decide (y.1 = p))
      else l.filter (fun y => decide (y.1 = p)) := by
  induction l with
  | nil => by_cases h : x.1 = p <;> simp [insert_by_priority, h]
  | cons a t ih =>
    by_cases hc : a.1 ≤ x.1
    · simp only [insert_by_priority, if_pos hc]
      by_cases h : x.1 = p <;> simp [h, List.filter_cons]
    · simp only [insert_by_priority, if_neg hc]
      by_cases h : x.1 = p
      · have hax : ¬ a.1 = p := by omega
        simp [List.filter_cons, h, hax, ih]
      · simp [List.filter_cons, h, ih]

theorem perm_insert_by_priority (x : ℕ × ℕ × String) (l : List (ℕ × ℕ × String)) :
    List.Perm (insert_by_priority x l) (x :: l) := by
  induction l with
  | nil => simp [insert_by_priority]
  | cons a t ih =>
    by_cases hc : a.1 ≤ x.1
    · simp [insert_by_priority, hc]
    · simp only [insert_by_priority, if_neg hc]
      exact (List.Perm.cons a ih).trans (List.Perm.swap x a t)

theorem pairwise_sort_by_priority (l : List (ℕ × ℕ × String)) :
    (sort_by_priority l).Pairwise fun a b => b.1 ≤ a.1 := by
  induction l with
  | nil => simp [sort_by_priority]
  | cons a t ih => exact pairwise_insert_by_priority a _ ih

theorem filter_sort_by_priority (l : List (ℕ × ℕ × String)) (p : ℕ) :
    (sort_by_priority l).filter (fun y => decide (y.1 = p)) =
      l.filter (fun y => decide (y.1 = p)) := by
  induction l with
  | nil => rfl
  | cons a t ih =>
    show (insert_by_priority a (sort_by_priority t)).filter _ = _
    rw [filter_insert_by_priority, List.filter_cons]
    by_cases h : a.1 = p <;> simp [h, ih]

theorem perm_sort_by_priority (l : List (ℕ × ℕ × String)) :
    List.Perm (sort_by_priority l) l := by
  induction l with
  | nil => exact List.Perm.refl []
  | cons a t ih => exact (perm_insert_by_priority a _).trans (List.Perm.cons a ih)

/-- C9: the list returned by `_get_available_input_devices` is the input
devices ranked by descending priority under the static name policy
(`device_priority`), with ties between equal-priority devices broken by
their original enumeration order: sorted descending, a permutation of the
enumerated prioritised entries, and for each priority class the returned
order equals the enumeration order. -/
theorem device_list_ranked (devs : List DeviceInfo) :
    (get_available_input_devices devs).Pairwise (fun a b => b.1 ≤ a.1) ∧
    (∀ p, (get_available_input_devices devs).filter (fun y => decide (y.1 = p)) =
      (prioritized_input_devices devs).filter (fun y => decide (y.1 = p))) ∧
    List.Perm (get_available_input_devices devs) (prioritized_input_devices devs) :=
  ⟨pairwise_sort_by_priority _, fun p => filter_sort_by_priority _ p, perm_sort_by_priority _⟩

/-- C2: the hallucination filter suppresses Output Sink delivery exactly
when the stripped, lower-cased transcript is string-equal to one of the
configured phrases; a transcript that merely contains a phrase as a
proper substring, without itself matching any phrase, is delivered
unfiltered. -/
theorem hallucination_filter_exact (raw : String) (hne : pyStrip raw ≠ "") :
    (filter_transcript raw = none ↔ pyLower (pyStrip raw) ∈ HALLUCINATION_PATTERNS) ∧
    ((∃ p ∈ HALLUCINATION_PATTERNS,
        p.data <:+: (pyLower (pyStrip raw)).data ∧ p ≠ pyLower (pyStrip raw)) →
      pyLower (pyStrip raw) ∉ HALLUCINATION_PATTERNS →
      filter_transcript raw = some (pyStrip raw)) := by
  constructor
  · constructor
    · intro hnone
      by_cases hm : pyLower (pyStrip raw) ∈ HALLUCINATION_PATTERNS
      · exact hm
      · simp [filter_transcript, hne, hm] at hnone
    · intro hm
      simp [filter_transcript, hne, hm]
  · intro _ hm
    simp [filter_transcript, hne, hm]

/-- C2 witness: "Thanks for watching" matches a configured phrase exactly
(case-insensitively) and is suppressed; "Bye for now" merely contains the
phrase "bye" as a proper substring and is delivered unfiltered. -/
theorem hallucination_filter_exact_witness :
    filter_transcript "Thanks for watching" = none ∧
    filter_transcript "Bye for now" = some (pyStrip "Bye for now") :=
  ⟨(hallucination_filter_exact "Thanks for watching" (by decide)).1.mpr (by decide),
    (hallucination_filter_exact "Bye for now" (by decide)).2
      ⟨"bye", by decide, by decide, by decide⟩ (by decide)⟩

/-- C4 witness: `[1/2, 0, 1/2]` has both edges above the threshold and is
a fixed point of the trimmer, twice over. -/
theorem trim_silence_idem_witness :
    trim_silence [(1/2 : ℚ), 0, 1/2] = [(1/2 : ℚ), 0, 1/2] ∧
    trim_silence (trim_silence [(1/2 : ℚ), 0, 1/2]) = trim_silence [(1/2 : ℚ), 0, 1/2] :=
  trim_silence_idem [(1/2 : ℚ), 0, 1/2] (by simp)
    (by show SILENCE_THRESHOLD < |(1/2 : ℚ)|
        rw [abs_of_pos (by norm_num : (0 : ℚ) < 1/2)]
        norm_num [SILENCE_THRESHOLD])
    (by show SILENCE_THRESHOLD < |(1/2 : ℚ)|
        rw [abs_of_pos (by norm_num : (0 : ℚ) < 1/2)]
        norm_num [SILENCE_THRESHOLD])

end WhisperDictate
